import Mathlib

/-!
A verification development for the `linux-toolkit` Wayland client binding
layer.  The Rust sources are shallowly embedded: the internal event queue
(`src/wayland/event_queue.rs`), the output/seat registries
(`src/wayland/output.rs`, `src/wayland/seat.rs`), surface scale-factor
aggregation (`src/wayland/surface.rs`), the keyboard repeat timer
(`src/wayland/keyboard.rs`), clipboard mime-type negotiation
(`src/wayland/clipboard.rs`), the data-device selection state machine
(`src/wayland/data_device.rs`) and POSIX locale resolution
(`src/locale.rs`).  Stateful Rust code becomes explicit state passing;
`panic!`/`unwrap` failure becomes `Option`/`Except`.
-/

namespace LinuxToolkit

/-! ### Event queue (`src/wayland/event_queue.rs`)

The Rust queue is an `Arc<Mutex<VecDeque<T>>>` shared by an `EventSource`
(producer) and an `EventDrain` (consumer).  A single-threaded run of the
queue is its list of buffered events, oldest first. -/

/-- The buffered contents of one `EventQueue` (a `VecDeque<T>`, front first). -/
structure EventQueue (T : Type) where
  events : List T
deriving Repr, DecidableEq

/-- `EventQueue::new`: the shared buffer starts empty. -/
def EventQueue.new (T : Type) : EventQueue T := ⟨[]⟩

/-- `EventSource::push_event`: `events.push_back(event)`. -/
def push_event (q : EventQueue T) (event : T) : EventQueue T :=
  ⟨q.events ++ [event]⟩

/-- `EventDrain::poll_events`: `events.drain(..)` hands every buffered event
to the callback in front-to-back order and leaves the buffer empty.  The
first component is the sequence of callback invocations, in order; the
second is the queue afterwards. -/
def poll_events (q : EventQueue T) : List T × EventQueue T :=
  (q.events, ⟨[]⟩)

theorem foldl_push_event (init : List T) (es : List T) :
    es.foldl push_event ⟨init⟩ = ⟨init ++ es⟩ := by
  induction es generalizing init with
  | nil => simp [push_event]
  | cons e es ih =>
      simp only [List.foldl_cons, push_event]
      rw [ih]
      simp

/-- C1: a sequence of `push_event`s followed by one `poll_events` delivers
exactly the pushed events, in push order, with nothing lost, duplicated,
collapsed or reordered; a second `poll_events` with no intervening pushes
delivers nothing. -/
theorem poll_after_pushes_delivers_exactly (T : Type) (es : List T) :
    (poll_events (es.foldl push_event (EventQueue.new T))).1 = es ∧
      (poll_events (poll_events (es.foldl push_event (EventQueue.new T))).2).1 = [] := by
  constructor
  · rw [show EventQueue.new T = (⟨[]⟩ : EventQueue T) from rfl, foldl_push_event]
    simp [poll_events]
  · simp [poll_events]

/-! ### Outputs (`src/wayland/output.rs`)

A `Proxy<WlOutput>` is identified by its protocol object id and carries the
bound interface version.  `Proxy::equals` compares protocol object
identity, i.e. ids. -/

/-- A `Proxy<WlOutput>`: protocol id plus bound version. -/
structure OutputProxy where
  id : Nat
  version : Nat
deriving Repr, DecidableEq

/-- `wl_output::Subpixel` (external protocol enum; only `Unknown` is built
by this crate, as the initial value). -/
inductive Subpixel
| Unknown
| NoGeometry
| HorizontalRgb
| HorizontalBgr
| VerticalRgb
| VerticalBgr
deriving Repr, DecidableEq

/-- `wl_output::Transform` (external protocol enum; only `Normal` is built
by this crate, as the initial value). -/
inductive Transform
| Normal
| Rot90
| Rot180
| Rot270
| Flipped
| Flipped90
| Flipped180
| Flipped270
deriving Repr, DecidableEq

/-- A possible mode for an output (`struct Mode`). -/
structure Mode where
  dimensions : Nat × Nat
  refresh_rate : Nat
  is_current : Bool
  is_preferred : Bool
deriving Repr, DecidableEq

/-- Compiled information about an output (`struct OutputUserData`). -/
structure OutputUserData where
  model : String
  make : String
  location : Int × Int
  physical_size : Int × Int
  subpixel : Subpixel
  transform : Transform
  scale_factor : Nat
  modes : List Mode
deriving Repr, DecidableEq

/-- `OutputUserData::new`. -/
def OutputUserData.new : OutputUserData :=
  ⟨"", "", (0, 0), (0, 0), .Unknown, .Normal, 1, []⟩

/-- Rust `x as u32` on an `i32` value: two's-complement reinterpretation,
i.e. the representative of `x` modulo `2^32`. -/
def u32ofI32 (x : Int) : Nat :=
  (x % (4294967296 : Int)).toNat

/-- Events the `SurfaceManager` needs to know about (`enum
SurfaceManagerEvent`). -/
inductive SurfaceManagerEvent
| OutputScale (output : OutputProxy) (factor : Nat)
| OutputLeave (output : OutputProxy)
deriving Repr, DecidableEq

/-- Events the `CursorManager` needs to know about; the output-related
variants mirror `SurfaceManagerEvent` (`enum CursorManagerEvent` in
`src/wayland/cursor.rs`). -/
inductive CursorManagerEvent
| OutputScale (output : OutputProxy) (factor : Nat)
| OutputLeave (output : OutputProxy)
deriving Repr, DecidableEq

/-- The `wl_output` protocol events handled by the closure registered in
`OutputManager::new_output`. -/
inductive WlOutputEvent
| Done
| Geometry (x y physical_width physical_height : Int) (subpixel : Subpixel)
    (model make : String) (transform : Transform)
| Mode (width height refresh : Int) (flagPreferred flagCurrent : Bool)
| Scale (factor : Int)
deriving Repr, DecidableEq

/-- The `Event::Mode` arm of the output callback: find the first stored
mode with the same `(dimensions, refresh_rate)` and update its flags in
place, otherwise push a new `Mode`. -/
def update_modes (dimensions : Nat × Nat) (refresh_rate : Nat)
    (is_preferred is_current : Bool) : List Mode → List Mode
| [] =>
    [{ dimensions := dimensions, refresh_rate := refresh_rate,
       is_current := is_current, is_preferred := is_preferred }]
| m :: rest =>
    if m.dimensions = dimensions ∧ m.refresh_rate = refresh_rate then
      { m with is_preferred := is_preferred, is_current := is_current } :: rest
    else
      m :: update_modes dimensions refresh_rate is_preferred is_current rest

/-- The closure registered on a `wl_output` in `OutputManager::new_output`:
it mutates the output's `OutputUserData` and, on `Scale`, pushes derived
events to the surface- and cursor-manager queues (returned as the second
and third components). -/
def handle_output_event (output : OutputProxy) (event : WlOutputEvent)
    (user_data : OutputUserData) :
    OutputUserData × List SurfaceManagerEvent × List CursorManagerEvent :=
  match event with
  | .Done => (user_data, [], [])
  | .Geometry x y physical_width physical_height subpixel model make transform =>
      ({ user_data with
          location := (x, y),
          physical_size := (physical_width, physical_height),
          subpixel := subpixel, transform := transform,
          model := model, make := make }, [], [])
  | .Mode width height refresh flagPreferred flagCurrent =>
      ({ user_data with
          modes := update_modes (u32ofI32 width, u32ofI32 height)
            (u32ofI32 refresh) flagPreferred flagCurrent user_data.modes },
        [], [])
  | .Scale factor =>
      let factor := u32ofI32 factor
      ({ user_data with scale_factor := factor },
        [.OutputScale output factor], [.OutputScale output factor])

/-- Delivering a sequence of `wl_output` events to one output's user data
(the queues the `Scale` arm pushes to are not part of the user data). -/
def run_output_events (output : OutputProxy) (events : List WlOutputEvent) :
    OutputUserData :=
  events.foldl (fun ud e => (handle_output_event output e ud).1) OutputUserData.new

/-- The `(dimensions, refresh_rate)` identity of a stored mode. -/
def modeKey (m : Mode) : (Nat × Nat) × Nat :=
  (m.dimensions, m.refresh_rate)

/-- The state owned by an `OutputManager`, together with the trace of
`release()` teardown calls it has issued and the events it has pushed to
the surface- and cursor-manager queues. -/
structure OutputManagerState where
  outputs : List OutputProxy
  surface_events : List SurfaceManagerEvent
  cursor_events : List CursorManagerEvent
  released : List OutputProxy
deriving Repr, DecidableEq

/-- `OutputManager::new`: empty output list, nothing pushed or released. -/
def OutputManagerState.new : OutputManagerState :=
  ⟨[], [], [], []⟩

/-- `OutputManager::new_output` as far as registry state is concerned:
bind the advertised output and push it onto the list. -/
def new_output (s : OutputManagerState) (output : OutputProxy) : OutputManagerState :=
  { s with outputs := s.outputs ++ [output] }

/-- `OutputManager::get_output`: linear scan by id. -/
def get_output (s : OutputManagerState) (output_id : Nat) : Option OutputProxy :=
  s.outputs.find? (fun output => output.id == output_id)

/-- `OutputManager::remove_output`.  The source unwraps
`get_output(output_id)`, so a missing id is a panic, modelled as `none`.
Otherwise it pushes `OutputLeave` to the surface and cursor managers and
retains the list, calling `release()` on every match whose version is at
least 3. -/
def remove_output (s : OutputManagerState) (output_id : Nat) :
    Option OutputManagerState :=
  match get_output s output_id with
  | none => none
  | some output =>
      some { outputs := s.outputs.filter (fun o => !(o.id == output_id)),
             surface_events := s.surface_events ++ [.OutputLeave output],
             cursor_events := s.cursor_events ++ [.OutputLeave output],
             released := s.released ++
               s.outputs.filter (fun o => o.id == output_id && decide (3 ≤ o.version)) }

/-! ### Seats (`src/wayland/seat.rs`) -/

/-- A `Proxy<WlSeat>`: protocol id plus bound version. -/
structure SeatProxy where
  id : Nat
  version : Nat
deriving Repr, DecidableEq

/-- The registry state owned by a `SeatManager`, with the trace of
`release()` teardown calls. -/
structure SeatManagerState where
  seats : List SeatProxy
  released : List SeatProxy
deriving Repr, DecidableEq

/-- `SeatManager::new`: empty seat list. -/
def SeatManagerState.new : SeatManagerState :=
  ⟨[], []⟩

/-- `SeatManager::new_seat` as far as registry state is concerned. -/
def new_seat (s : SeatManagerState) (seat : SeatProxy) : SeatManagerState :=
  { s with seats := s.seats ++ [seat] }

/-- `SeatManager::remove_seat`: retain-style removal, calling `release()`
on every match whose version is at least 5. -/
def remove_seat (s : SeatManagerState) (seat_id : Nat) : SeatManagerState :=
  { seats := s.seats.filter (fun seat => !(seat.id == seat_id)),
    released := s.released ++
      s.seats.filter (fun seat => seat.id == seat_id && decide (5 ≤ seat.version)) }

/-! ### Surfaces (`src/wayland/surface.rs`)

A surface's user data holds its per-surface event queue, its stored scale
factor and the outputs it currently overlaps.  `update_scale_factor`
reads each overlapped output's `OutputUserData::scale_factor` through the
proxy; we model that side table as an environment `env : Nat → Nat` from
output id to that output's stored scale factor. -/

/-- Possible events generated by a surface (`enum SurfaceEvent`).  The
`Seat` variant's payload (a `SeatEvent`) plays no role in the scale-factor
logic and is elided. -/
inductive SurfaceEvent
| Scale (scale_factor : Nat)
| Seat (seat_id : Nat)
deriving Repr, DecidableEq

/-- The `wl_surface` user data (`struct SurfaceUserData`): the stored
scale factor, the overlapped outputs, and the events pushed so far to the
surface's own event queue. -/
structure SurfaceUserData where
  scale_factor : Nat
  outputs : List OutputProxy
  emitted : List SurfaceEvent
deriving Repr, DecidableEq

/-- `SurfaceUserData::new`: scale factor 1, no outputs, empty queue. -/
def SurfaceUserData.new : SurfaceUserData :=
  ⟨1, [], []⟩

/-- The loop body of `update_scale_factor`: `scale_factor` starts at 1 and
is folded with `max` over the overlapped outputs' stored scale factors. -/
def computed_scale (env : Nat → Nat) (outputs : List OutputProxy) : Nat :=
  outputs.foldl (fun scale_factor output => max scale_factor (env output.id)) 1

/-- `SurfaceUserData::update_scale_factor`: recompute, and only when the
recomputed value differs from the stored one, store it and push a
`SurfaceEvent::Scale`. -/
def update_scale_factor (env : Nat → Nat) (s : SurfaceUserData) : SurfaceUserData :=
  let scale_factor := computed_scale env s.outputs
  if s.scale_factor ≠ scale_factor then
    { s with scale_factor := scale_factor,
             emitted := s.emitted ++ [SurfaceEvent.Scale scale_factor] }
  else s

/-- `SurfaceUserData::enter`: record the entered output, recompute. -/
def SurfaceUserData.enter (env : Nat → Nat) (output : OutputProxy)
    (s : SurfaceUserData) : SurfaceUserData :=
  update_scale_factor env { s with outputs := s.outputs ++ [output] }

/-- `SurfaceUserData::leave`: retain the outputs not `Proxy::equals` to
the left output (protocol object identity, i.e. id), recompute. -/
def SurfaceUserData.leave (env : Nat → Nat) (output : OutputProxy)
    (s : SurfaceUserData) : SurfaceUserData :=
  update_scale_factor env
    { s with outputs := s.outputs.filter (fun output2 => !(output.id == output2.id)) }

/-- The event sources that drive one surface's scale state: compositor
`Enter`/`Leave` events on the surface, and the `SurfaceManagerEvent`s
(`OutputScale`, `OutputLeave`) fanned out by `OutputManager` and handled
in `SurfaceManager::handle_events`. -/
inductive SurfaceOp
| enter (output : OutputProxy)
| leave (output : OutputProxy)
| outputScale (output : OutputProxy) (factor : Nat)
| outputLeave (output : OutputProxy)

/-- One step of the surface scale state machine.  The environment part
models the outputs' side table: a `wl_output::Scale` event first stores
the new factor in that output's user data, then `SurfaceManager`'s
`OutputScale` arm calls `update_scale_factor`; its `OutputLeave` arm calls
`leave`. -/
def apply_surface_op (w : (Nat → Nat) × SurfaceUserData) (op : SurfaceOp) :
    (Nat → Nat) × SurfaceUserData :=
  match op with
  | .enter output => (w.1, SurfaceUserData.enter w.1 output w.2)
  | .leave output => (w.1, SurfaceUserData.leave w.1 output w.2)
  | .outputScale output factor =>
      let env := fun i => if i = output.id then factor else w.1 i
      (env, update_scale_factor env w.2)
  | .outputLeave output => (w.1, SurfaceUserData.leave w.1 output w.2)

/-- Running a sequence of surface/output events. -/
def run_surface_ops (ops : List SurfaceOp) (w : (Nat → Nat) × SurfaceUserData) :
    (Nat → Nat) × SurfaceUserData :=
  ops.foldl apply_surface_op w

/-- The specification formula for the effective scale factor:
`max(1, max over current outputs of output.scale_factor)` (spec §4.3). -/
def spec_scale (env : Nat → Nat) (outputs : List OutputProxy) : Nat :=
  max 1 ((outputs.map (fun output => env output.id)).foldr max 0)

/-! ### Keyboard repeat (`src/wayland/keyboard.rs`)

`Repeat` owns a single `mpsc` kill channel shared (via `Arc`) by every
repeat thread it ever spawned.  `start` first calls `abort` (which sends
one `()` into the channel if a key is held), then spawns a thread that
sleeps for `delay`, polls the channel (consuming one message and exiting
if one is present), and then loops: emit a synthesized release+press pair,
sleep for `rate`, poll the channel.  Threads are scheduled by the OS;
`thread::sleep` only guarantees a minimum duration, so wake-up order
between live threads is unconstrained.  We model each code region between
sleeps as one atomic step and let a schedule (a list of thread indices)
choose which thread runs next. -/

/-- `wl_keyboard::KeyState`. -/
inductive KState
| Pressed
| Released
deriving Repr, DecidableEq

/-- Where a spawned repeat thread currently is: parked in its initial
`delay` sleep, in the emit loop, or returned. -/
inductive TPhase
| DelayWait
| Looping
| Dead
deriving Repr, DecidableEq

/-- One spawned repeat thread: the raw key it repeats and its phase. -/
structure RepeatThread where
  rawkey : Nat
  phase : TPhase
deriving Repr, DecidableEq

/-- The `Repeat` handler state plus everything shared with its threads:
the pending message count of the kill channel, the spawned threads, and
the key events queued so far (rawkey and key state; the other `KeyInfo`
fields do not affect which key's events are emitted). -/
structure RepeatState where
  rate : Nat
  delay : Nat
  key_held : Bool
  chan : Nat
  threads : List RepeatThread
  emitted : List (Nat × KState)
deriving Repr, DecidableEq

/-- `Repeat::new`. -/
def RepeatState.new : RepeatState :=
  ⟨0, 0, false, 0, [], []⟩

/-- `Repeat::set_info`. -/
def set_info (rate delay : Nat) (s : RepeatState) : RepeatState :=
  { s with rate := rate, delay := delay }

/-- `Repeat::abort`: if a key is held, send one `()` into the kill
channel and clear `key_held`. -/
def Repeat.abort (s : RepeatState) : RepeatState :=
  if s.key_held then { s with chan := s.chan + 1, key_held := false } else s

/-- `Repeat::start`: abort any held key, mark the new key held, and
(unless rate or delay is zero) spawn a repeat thread for it, initially in
its `delay` sleep. -/
def Repeat.start (rawkey : Nat) (s : RepeatState) : RepeatState :=
  let s := Repeat.abort s
  let s := { s with key_held := true }
  if s.rate = 0 ∨ s.delay = 0 then s
  else { s with threads := s.threads ++ [⟨rawkey, .DelayWait⟩] }

/-- One scheduler step: thread `i` runs its next code region.
`DelayWait`: the thread returns from its `delay` sleep and does
`try_recv` — if a message is pending it consumes it and returns, else it
enters the loop.  `Looping`: one loop iteration — queue a synthesized
release event and press event for its key, sleep for `rate`, `try_recv`
and exit if a message is pending. -/
def thread_step (s : RepeatState) (i : Nat) : RepeatState :=
  match s.threads[i]? with
  | none => s
  | some t =>
      match t.phase with
      | .Dead => s
      | .DelayWait =>
          if 0 < s.chan then
            { s with chan := s.chan - 1,
                     threads := s.threads.set i { t with phase := .Dead } }
          else
            { s with threads := s.threads.set i { t with phase := .Looping } }
      | .Looping =>
          let emitted := s.emitted ++ [(t.rawkey, KState.Released), (t.rawkey, KState.Pressed)]
          if 0 < s.chan then
            { s with emitted := emitted, chan := s.chan - 1,
                     threads := s.threads.set i { t with phase := .Dead } }
          else
            { s with emitted := emitted }

/-- Running the spawned threads under a schedule. -/
def run_schedule (s : RepeatState) (schedule : List Nat) : RepeatState :=
  schedule.foldl thread_step s

/-! ### Clipboard (`src/wayland/clipboard.rs`)

`Clipboard::get` first checks whether this client owns a local data
source for the seat (then it emits `GetLocal` with `mime_types[0]`);
otherwise it unwraps the seat's data device, and if there is a current
selection offer it negotiates a mime type with a nested loop — outer over
the local preference list `self.mime_types`, inner over the offer's
advertised types — and emits `Get` only if `offer.receive` succeeds.
The offer's advertised type list (supplied by `DataOffer::with_mime_types`
in the `data_offer` module) and the outcome of `receive` are inputs
here. -/

/-- What one `Clipboard::get` call pushes to the clipboard queue; pipes
are modelled by their file descriptor. -/
inductive ClipboardEvent
| Get (seat_id : Nat) (pipe : Nat) (mime_type : String)
| Set (seat_id : Nat) (pipe : Nat) (mime_type : String)
| GetLocal (seat_id : Nat) (mime_type : String)
deriving Repr, DecidableEq

/-- The observable outcome of a `Clipboard::get` call. -/
inductive GetOutcome
| panicked
| pushed (event : ClipboardEvent)
| nothing
deriving Repr, DecidableEq

/-- The nested negotiation loop in `Clipboard::get`: for each local
`clipboard_type` in order, scan the offer's types for an equal one and
return the first hit. -/
def negotiate_mime (clipboard_types offer_types : List String) : Option String :=
  match clipboard_types with
  | [] => none
  | clipboard_type :: rest =>
      if offer_types.contains clipboard_type then some clipboard_type
      else negotiate_mime rest offer_types

/-- `Clipboard::get`.  `data_sources` holds the seat ids of live local
data sources; `device_known` is whether `get_data_device(seat_id)`
returns `Some` (its `unwrap` panics otherwise); `selection` is the
current offer's advertised mime types, if any; `receive` gives the read
pipe `offer.receive(mime)` yields, if it succeeds. -/
def clipboard_get (mime_types : List String) (data_sources : List Nat)
    (seat_id : Nat) (device_known : Bool) (selection : Option (List String))
    (receive : String → Option Nat) : GetOutcome :=
  if data_sources.contains seat_id then
    match mime_types[0]? with
    | some mime_type => .pushed (.GetLocal seat_id mime_type)
    | none => .panicked
  else if device_known = false then .panicked
  else
    match selection with
    | none => .nothing
    | some offer_types =>
        match negotiate_mime mime_types offer_types with
        | none => .nothing
        | some mime_type =>
            match receive mime_type with
            | some pipe => .pushed (.Get seat_id pipe mime_type)
            | none => .nothing

/-! ### Data device (`src/wayland/data_device.rs`) -/

/-- A `Proxy<WlDataOffer>`, identified by its protocol object id
(`Proxy::equals`). -/
structure OfferProxy where
  id : Nat
deriving Repr, DecidableEq

/-- A `DataOffer` wrapping its proxy (`DataOffer::new(id)`; the offer's
mime-type user data lives in the `data_offer` module and plays no role in
the selection bookkeeping). -/
structure DataOffer where
  offer : OfferProxy
deriving Repr, DecidableEq

/-- `struct DataDeviceUserData`. -/
structure DataDeviceUserData where
  selection : Option DataOffer
  current_dnd : Option DataOffer
  offers : List DataOffer
deriving Repr, DecidableEq

/-- `DataDeviceUserData::new`. -/
def DataDeviceUserData.new : DataDeviceUserData :=
  ⟨none, none, []⟩

/-- `Vec::swap_remove(i)`: remove index `i`, moving the last element into
its place. -/
def swap_remove (l : List α) (i : Nat) : List α :=
  match l.getLast? with
  | none => []
  | some last => (l.set i last).dropLast

/-- `DataDeviceUserData::set_selection`.  A `Selection` event naming an
offer never announced via `DataOffer` is a `panic!`, modelled as
`Except.error` with the panic message. -/
def set_selection (ud : DataDeviceUserData) (offer : Option OfferProxy) :
    Except String DataDeviceUserData :=
  match offer with
  | some offer =>
      match ud.offers.findIdx? (fun o => o.offer == offer) with
      | some i =>
          .ok { ud with selection := ud.offers[i]?,
                        offers := swap_remove ud.offers i }
      | none => .error "Compositor set an unknown data_offer for selection."
  | none => .ok { ud with selection := none }

/-- `DataDeviceUserData::set_dnd` (same logic targeting `current_dnd`;
the source reuses the selection panic message verbatim). -/
def set_dnd (ud : DataDeviceUserData) (offer : Option OfferProxy) :
    Except String DataDeviceUserData :=
  match offer with
  | some offer =>
      match ud.offers.findIdx? (fun o => o.offer == offer) with
      | some i =>
          .ok { ud with current_dnd := ud.offers[i]?,
                        offers := swap_remove ud.offers i }
      | none => .error "Compositor set an unknown data_offer for selection."
  | none => .ok { ud with current_dnd := none }

/-! ### Locale resolution (`src/locale.rs`)

`env::var_os(name)` yields an `OsString` when the variable is set; Rust's
`into_string().ok()` converts it to `Some` UTF-8 string only when the
value is valid Unicode.  We model an `OsString` by that conversion
result, and a process environment by a lookup function. -/

/-- An `OsString` as the category resolvers observe it: `into_string`
holds `some s` exactly when the value is valid Unicode. -/
structure OsString where
  into_string : Option String
deriving Repr, DecidableEq

/-- `get_locale_collate`. -/
def get_locale_collate (env : String → Option OsString) : String :=
  (((((env "LC_ALL").orElse (fun _ => env "LC_COLLATE")).orElse
    (fun _ => env "LANG")).bind OsString.into_string).getD "C")

/-- `get_locale_ctype`. -/
def get_locale_ctype (env : String → Option OsString) : String :=
  (((((env "LC_ALL").orElse (fun _ => env "LC_CTYPE")).orElse
    (fun _ => env "LANG")).bind OsString.into_string).getD "C")

/-- `get_locale_messages`. -/
def get_locale_messages (env : String → Option OsString) : String :=
  (((((env "LC_ALL").orElse (fun _ => env "LC_MESSAGES")).orElse
    (fun _ => env "LANG")).bind OsString.into_string).getD "C")

/-- `get_locale_monetary`. -/
def get_locale_monetary (env : String → Option OsString) : String :=
  (((((env "LC_ALL").orElse (fun _ => env "LC_MONETARY")).orElse
    (fun _ => env "LANG")).bind OsString.into_string).getD "C")

/-- `get_locale_numeric`. -/
def get_locale_numeric (env : String → Option OsString) : String :=
  (((((env "LC_ALL").orElse (fun _ => env "LC_NUMERIC")).orElse
    (fun _ => env "LANG")).bind OsString.into_string).getD "C")

/-- `get_locale_time`. -/
def get_locale_time (env : String → Option OsString) : String :=
  (((((env "LC_ALL").orElse (fun _ => env "LC_TIME")).orElse
    (fun _ => env "LANG")).bind OsString.into_string).getD "C")

/-- The first set variable in the fallback chain
`LC_ALL → category variable → LANG`. -/
def first_set_locale (env : String → Option OsString) (category_var : String) :
    Option OsString :=
  match env "LC_ALL" with
  | some os => some os
  | none =>
      match env category_var with
      | some os => some os
      | none => env "LANG"

/-- The amended locale specification: take the first set variable in the
chain; return its value if it is valid Unicode, and the literal `"C"`
otherwise (later variables are not consulted) or when nothing is set. -/
def amended_locale (env : String → Option OsString) (category_var : String) : String :=
  match first_set_locale env category_var with
  | none => "C"
  | some os =>
      match os.into_string with
      | some s => s
      | none => "C"

/-- An environment where `LC_ALL` is set but not valid Unicode while
`LC_COLLATE` is set and valid. -/
def badLocaleEnv : String → Option OsString := fun name =>
  if name = "LC_ALL" then some ⟨none⟩
  else if name = "LC_COLLATE" then some ⟨some "en_US.UTF-8"⟩
  else none

/-! ### Theorems about the output and seat registries -/

theorem update_modes_map_modeKey (dims : Nat × Nat) (rr : Nat) (p c : Bool)
    (modes : List Mode) :
    (update_modes dims rr p c modes).map modeKey =
      if (dims, rr) ∈ modes.map modeKey then modes.map modeKey
      else modes.map modeKey ++ [(dims, rr)] := by
  induction modes with
  | nil => simp [update_modes, modeKey]
  | cons m rest ih =>
      by_cases h : m.dimensions = dims ∧ m.refresh_rate = rr
      · have hk : modeKey m = (dims, rr) := by
          simp [modeKey, h.1, h.2]
        have hcond : (dims, rr) ∈ List.map modeKey (m :: rest) := by
          rw [List.map_cons, hk]
          exact List.mem_cons_self _ _
        rw [update_modes, if_pos h, if_pos hcond, List.map_cons, List.map_cons]
        congr 1
      · have hk : modeKey m ≠ (dims, rr) := by
          intro hc
          simp only [modeKey, Prod.mk.injEq] at hc
          exact h hc
        rw [update_modes, if_neg h, List.map_cons, ih]
        by_cases hmem : (dims, rr) ∈ List.map modeKey rest
        · have hcond : (dims, rr) ∈ List.map modeKey (m :: rest) := by
            rw [List.map_cons]
            exact List.mem_cons_of_mem _ hmem
          rw [if_pos hmem, if_pos hcond, List.map_cons]
        · have hcond : (dims, rr) ∉ List.map modeKey (m :: rest) := by
            rw [List.map_cons]
            intro hc
            rcases List.mem_cons.mp hc with h1 | h2
            · exact hk h1.symm
            · exact hmem h2
          rw [if_neg hmem, if_neg hcond, List.map_cons, List.cons_append]

theorem update_modes_nodup (dims : Nat × Nat) (rr : Nat) (p c : Bool)
    (modes : List Mode) (h : (modes.map modeKey).Nodup) :
    ((update_modes dims rr p c modes).map modeKey).Nodup := by
  rw [update_modes_map_modeKey]
  split
  · exact h
  · next hmem => simp [List.nodup_append, h, hmem]

theorem handle_output_event_modes_nodup (output : OutputProxy)
    (e : WlOutputEvent) (ud : OutputUserData)
    (h : (ud.modes.map modeKey).Nodup) :
    (((handle_output_event output e ud).1).modes.map modeKey).Nodup := by
  cases e with
  | Done => exact h
  | Geometry x y pw ph sp model make tr => exact h
  | Mode w hgt r fp fc => exact update_modes_nodup _ _ _ _ _ h
  | Scale f => exact h

theorem run_output_events_aux (output : OutputProxy)
    (events : List WlOutputEvent) (ud : OutputUserData)
    (h : (ud.modes.map modeKey).Nodup) :
    (((events.foldl (fun ud e => (handle_output_event output e ud).1) ud)).modes.map
      modeKey).Nodup := by
  induction events generalizing ud with
  | nil => exact h
  | cons e rest ih =>
      exact ih _ (handle_output_event_modes_nodup output e ud h)

/-- C10: for every sequence of `wl_output` events delivered to one output,
the stored mode list has at most one entry per `(dimensions, refresh_rate)`
pair; a `Mode` event whose key matches an existing entry leaves the key
list unchanged (in-place flag update), and a new key is appended exactly
when absent. -/
theorem modes_unique_per_dimensions_refresh :
    (∀ (output : OutputProxy) (events : List WlOutputEvent),
      ((run_output_events output events).modes.map modeKey).Nodup) ∧
    (∀ (dims : Nat × Nat) (rr : Nat) (p c : Bool) (modes : List Mode),
      (update_modes dims rr p c modes).map modeKey =
        if (dims, rr) ∈ modes.map modeKey then modes.map modeKey
        else modes.map modeKey ++ [(dims, rr)]) := by
  constructor
  · intro output events
    exact run_output_events_aux output events OutputUserData.new (by simp [OutputUserData.new])
  · exact update_modes_map_modeKey

theorem seat_filter_self (l : List SeatProxy) (seat_id : Nat) :
    ((l.filter fun s => !(s.id == seat_id)).filter fun s => !(s.id == seat_id)) =
      l.filter fun s => !(s.id == seat_id) :=
  List.filter_eq_self.mpr fun _ ha => (List.mem_filter.mp ha).2

theorem seat_filter_clash (l : List SeatProxy) (seat_id : Nat) :
    ((l.filter fun s => !(s.id == seat_id)).filter
      fun s => s.id == seat_id && decide (5 ≤ s.version)) = [] := by
  rw [List.filter_eq_nil_iff]
  intro a ha
  have h2 := (List.mem_filter.mp ha).2
  simp only [Bool.not_eq_true'] at h2
  simp [h2]

/-- C2 (code bug): `OutputManager::remove_output` unwraps
`get_output(output_id)`, so processing a `Remove` for an id that is absent
— in particular a second removal of the same id — panics instead of being
a no-op, while `SeatManager::remove_seat` (retain-style) is idempotent as
the spec demands.  The first conjunct removes output id 7 once (fine) and
then again (panic = `none`). -/
theorem remove_output_double_removal_panics :
    ((remove_output (new_output OutputManagerState.new ⟨7, 3⟩) 7).bind
        fun s1 => remove_output s1 7) = none ∧
      (remove_output (new_output OutputManagerState.new ⟨7, 3⟩) 7).isSome = true ∧
      (∀ (t : SeatManagerState) (seat_id : Nat),
        remove_seat (remove_seat t seat_id) seat_id = remove_seat t seat_id) := by
  refine ⟨by decide, by decide, ?_⟩
  intro t seat_id
  simp only [remove_seat, seat_filter_self, seat_filter_clash, List.append_nil]

/-- C7: when a `Remove` event finds its entity, `release()` is issued for
it exactly when the advertised version meets the gate (3 for `wl_output`,
5 for `wl_seat`); below the gate the entity is still removed from the
list, with no teardown call. -/
theorem release_iff_version_gate :
    (∀ (s : OutputManagerState) (output_id : Nat) (o : OutputProxy)
        (s2 : OutputManagerState),
      remove_output s output_id = some s2 →
        ((o ∈ s2.released ↔
            o ∈ s.released ∨ (o ∈ s.outputs ∧ o.id = output_id ∧ 3 ≤ o.version)) ∧
          (o ∈ s2.outputs ↔ o ∈ s.outputs ∧ o.id ≠ output_id))) ∧
    (∀ (t : SeatManagerState) (seat_id : Nat) (p : SeatProxy),
      (p ∈ (remove_seat t seat_id).released ↔
          p ∈ t.released ∨ (p ∈ t.seats ∧ p.id = seat_id ∧ 5 ≤ p.version)) ∧
        (p ∈ (remove_seat t seat_id).seats ↔ p ∈ t.seats ∧ p.id ≠ seat_id)) := by
  constructor
  · intro s output_id o s2 h
    rw [remove_output] at h
    cases hg : get_output s output_id with
    | none => rw [hg] at h; exact absurd h (by simp)
    | some output =>
        rw [hg] at h
        injection h with h
        subst h
        constructor
        · simp [List.mem_append, List.mem_filter]
        · simp [List.mem_filter]
  · intro t seat_id p
    constructor
    · simp [remove_seat, List.mem_append, List.mem_filter]
    · simp [remove_seat, List.mem_filter]

/-- A two-output registry: id 1 below the release gate (version 2), id 2
above it. -/
def outputGateDemo : OutputManagerState :=
  ⟨[⟨1, 2⟩, ⟨2, 5⟩], [], [], []⟩

/-- `outputGateDemo` after removing output id 1. -/
def outputGateDemoAfter : OutputManagerState :=
  ⟨[⟨2, 5⟩], [.OutputLeave ⟨1, 2⟩], [.OutputLeave ⟨1, 2⟩], []⟩

theorem release_iff_version_gate_witness :
    (((⟨1, 2⟩ : OutputProxy) ∈ outputGateDemoAfter.released ↔
        (⟨1, 2⟩ : OutputProxy) ∈ outputGateDemo.released ∨
          ((⟨1, 2⟩ : OutputProxy) ∈ outputGateDemo.outputs ∧
            (⟨1, 2⟩ : OutputProxy).id = 1 ∧ 3 ≤ (⟨1, 2⟩ : OutputProxy).version)) ∧
      ((⟨1, 2⟩ : OutputProxy) ∈ outputGateDemoAfter.outputs ↔
        (⟨1, 2⟩ : OutputProxy) ∈ outputGateDemo.outputs ∧
          (⟨1, 2⟩ : OutputProxy).id ≠ 1)) :=
  release_iff_version_gate.1 outputGateDemo 1 ⟨1, 2⟩ outputGateDemoAfter (by decide)

/-! ### Theorems about surface scale-factor aggregation -/

theorem update_scale_factor_outputs (env : Nat → Nat) (s : SurfaceUserData) :
    (update_scale_factor env s).outputs = s.outputs := by
  rw [update_scale_factor]
  split <;> rfl

theorem update_scale_factor_scale (env : Nat → Nat) (s : SurfaceUserData) :
    (update_scale_factor env s).scale_factor = computed_scale env s.outputs := by
  rw [update_scale_factor]
  split
  · rfl
  · next h => exact Decidable.not_not.mp h

theorem apply_surface_op_inv (w : (Nat → Nat) × SurfaceUserData) (op : SurfaceOp) :
    ((apply_surface_op w op).2).scale_factor =
      computed_scale (apply_surface_op w op).1 ((apply_surface_op w op).2).outputs := by
  cases op <;>
    simp [apply_surface_op, SurfaceUserData.enter, SurfaceUserData.leave,
      update_scale_factor_scale, update_scale_factor_outputs]

theorem run_surface_ops_inv (ops : List SurfaceOp)
    (w : (Nat → Nat) × SurfaceUserData)
    (h : w.2.scale_factor = computed_scale w.1 w.2.outputs) :
    (run_surface_ops ops w).2.scale_factor =
      computed_scale (run_surface_ops ops w).1 (run_surface_ops ops w).2.outputs := by
  induction ops generalizing w with
  | nil => exact h
  | cons op rest ih => exact ih _ (apply_surface_op_inv w op)

theorem foldl_max_eq (env : Nat → Nat) (l : List OutputProxy) (a : Nat) :
    l.foldl (fun acc o => max acc (env o.id)) a =
      max a ((l.map fun o => env o.id).foldr max 0) := by
  induction l generalizing a with
  | nil => simp
  | cons o rest ih =>
      simp only [List.foldl_cons, List.map_cons, List.foldr_cons, ih, max_assoc]

theorem computed_scale_eq_spec (env : Nat → Nat) (outputs : List OutputProxy) :
    computed_scale env outputs = spec_scale env outputs :=
  foldl_max_eq env outputs 1

/-- C3: after any sequence of surface enter/leave events, output
scale-change notifications and output removals, the stored effective
scale factor equals `max(1, max over current outputs of the output's
scale factor)`; in particular it is 1 when no output is overlapped. -/
theorem surface_scale_equals_max_over_outputs :
    (∀ (ops : List SurfaceOp) (env0 : Nat → Nat),
      (run_surface_ops ops (env0, SurfaceUserData.new)).2.scale_factor =
        spec_scale (run_surface_ops ops (env0, SurfaceUserData.new)).1
          (run_surface_ops ops (env0, SurfaceUserData.new)).2.outputs) ∧
    (∀ env : Nat → Nat, spec_scale env [] = 1) := by
  constructor
  · intro ops env0
    rw [← computed_scale_eq_spec]
    exact run_surface_ops_inv ops (env0, SurfaceUserData.new) rfl
  · intro env
    rfl

/-- The output side table for the C4 concrete scenario: output id 2 has
scale factor 2, every other output has scale factor 1. -/
def scaleDemoEnv : Nat → Nat := fun i => if i = 2 then 2 else 1

/-- C4: `update_scale_factor` pushes a `Scale` event exactly when the
recomputed value differs from the stored one, and the event carries the
recomputed value.  Concretely: a surface overlapping outputs with scale
factors `{1, 2}` has emitted exactly one `Scale{2}`; re-announcing the
factor-2 output at factor 2 emits nothing; changing it to 3 emits exactly
one further `Scale{3}`. -/
theorem update_scale_factor_dedup :
    (∀ (env : Nat → Nat) (s : SurfaceUserData),
      (computed_scale env s.outputs = s.scale_factor ∧
          update_scale_factor env s = s) ∨
        (computed_scale env s.outputs ≠ s.scale_factor ∧
          update_scale_factor env s =
            { s with scale_factor := computed_scale env s.outputs,
                     emitted := s.emitted ++
                       [SurfaceEvent.Scale (computed_scale env s.outputs)] })) ∧
    (run_surface_ops [.enter ⟨1, 3⟩, .enter ⟨2, 3⟩, .outputScale ⟨2, 3⟩ 2]
        (scaleDemoEnv, SurfaceUserData.new)).2.emitted = [SurfaceEvent.Scale 2] ∧
    (run_surface_ops
        [.enter ⟨1, 3⟩, .enter ⟨2, 3⟩, .outputScale ⟨2, 3⟩ 2, .outputScale ⟨2, 3⟩ 3]
        (scaleDemoEnv, SurfaceUserData.new)).2.emitted =
      [SurfaceEvent.Scale 2, SurfaceEvent.Scale 3] := by
  refine ⟨?_, by decide, by decide⟩
  intro env s
  by_cases h : s.scale_factor = computed_scale env s.outputs
  · left
    refine ⟨h.symm, ?_⟩
    rw [update_scale_factor, if_neg (by simpa using h)]
  · right
    refine ⟨fun hc => h hc.symm, ?_⟩
    rw [update_scale_factor, if_pos h]

/-! ### Theorem about the keyboard repeat race -/

/-- Key A (rawkey 65) starts repeating, then key B (rawkey 30) starts
before A's delay elapses.  `Repeat::start` for B sends one `()` into the
kill channel both threads share. -/
def repeatRaceDemo : RepeatState :=
  Repeat.start 30 (Repeat.start 65 (set_info 25 600 RepeatState.new))

/-- C5 (code bug): under the schedule in which B's thread returns from
its delay sleep first (`thread::sleep` only guarantees a minimum, so A's
wake-up may be delayed past B's), B's thread consumes the single kill
token sent by `start(B)` and exits, A's thread then finds the channel
empty and enters its emit loop: the superseded key A's release/press
repeat events are pushed after B's start, and B's never are. -/
theorem repeat_kill_channel_race :
    (run_schedule repeatRaceDemo [1, 0, 0]).emitted =
        [(65, KState.Released), (65, KState.Pressed)] ∧
      (65 : Nat) ≠ 30 := by
  decide

/-! ### Theorems about clipboard mime negotiation -/

theorem negotiate_mime_eq_find (clipboard_types offer_types : List String) :
    negotiate_mime clipboard_types offer_types =
      clipboard_types.find? (fun c => offer_types.contains c) := by
  induction clipboard_types with
  | nil => rfl
  | cons c rest ih =>
      by_cases h : offer_types.contains c = true
      · rw [negotiate_mime, if_pos h, List.find?_cons, h]
      · have h2 : offer_types.contains c = false := by
          cases hc : offer_types.contains c
          · rfl
          · exact absurd hc h
        rw [negotiate_mime, if_neg h, List.find?_cons, h2, ih]

/-- C6: reading a remote selection offer negotiates the first element of
the local `mime_types` preference list that occurs among the offer's
advertised types (outer iteration over the local list, so local order
wins), and pushes no `Get` event when no mutually offered type exists. -/
theorem clipboard_get_first_mutual_mime (mime_types offer_types : List String)
    (seat_id : Nat) (receive : String → Option Nat) :
    negotiate_mime mime_types offer_types =
        mime_types.find? (fun c => offer_types.contains c) ∧
      clipboard_get mime_types [] seat_id true (some offer_types) receive =
        (match mime_types.find? (fun c => offer_types.contains c) with
         | none => GetOutcome.nothing
         | some m =>
             match receive m with
             | some pipe => GetOutcome.pushed (.Get seat_id pipe m)
             | none => GetOutcome.nothing) := by
  refine ⟨negotiate_mime_eq_find mime_types offer_types, ?_⟩
  have hget : clipboard_get mime_types [] seat_id true (some offer_types) receive =
      (match negotiate_mime mime_types offer_types with
       | none => GetOutcome.nothing
       | some m =>
           match receive m with
           | some pipe => GetOutcome.pushed (.Get seat_id pipe m)
           | none => GetOutcome.nothing) := rfl
  rw [hget, negotiate_mime_eq_find]

/-! ### Theorems about the data-device selection state machine -/

/-- C8: a `Selection`/`Enter` referencing an offer this client was never
announced is a loud protocol-contract failure (`panic!`, here
`Except.error`); a `None` offer clears the selection (or current dnd)
without error; a known offer is moved out of the announced-offers list
into the selection (or dnd) slot. -/
theorem data_device_foreign_offer_contract :
    (∀ (ud : DataDeviceUserData) (o : OfferProxy),
      (∀ d ∈ ud.offers, d.offer ≠ o) →
        set_selection ud (some o) =
            .error "Compositor set an unknown data_offer for selection." ∧
          set_dnd ud (some o) =
            .error "Compositor set an unknown data_offer for selection.") ∧
    (∀ ud : DataDeviceUserData,
      set_selection ud none = .ok { ud with selection := none } ∧
        set_dnd ud none = .ok { ud with current_dnd := none }) ∧
    (∀ (ud : DataDeviceUserData) (o : OfferProxy) (i : Nat),
      ud.offers.findIdx? (fun d => d.offer == o) = some i →
        set_selection ud (some o) =
            .ok { ud with selection := ud.offers[i]?,
                          offers := swap_remove ud.offers i } ∧
          set_dnd ud (some o) =
            .ok { ud with current_dnd := ud.offers[i]?,
                          offers := swap_remove ud.offers i } ∧
          (∀ d, ud.offers[i]? = some d → d.offer = o)) := by
  refine ⟨?_, ?_, ?_⟩
  · intro ud o h
    have hn : ud.offers.findIdx? (fun d => d.offer == o) = none :=
      List.findIdx?_eq_none_iff.mpr fun d hd => beq_eq_false_iff_ne.mpr (h d hd)
    exact ⟨by simp [set_selection, hn], by simp [set_dnd, hn]⟩
  · intro ud
    exact ⟨rfl, rfl⟩
  · intro ud o i h
    refine ⟨by simp [set_selection, h], by simp [set_dnd, h], ?_⟩
    intro d hd
    have hp := List.findIdx?_of_eq_some h
    rw [hd] at hp
    simpa using hp

/-- A data device that was announced offers 1 and 2. -/
def dataDeviceDemo : DataDeviceUserData :=
  ⟨none, none, [⟨⟨1⟩⟩, ⟨⟨2⟩⟩]⟩

theorem data_device_foreign_offer_contract_witness :
    set_selection dataDeviceDemo (some ⟨3⟩) =
        .error "Compositor set an unknown data_offer for selection." ∧
      set_selection dataDeviceDemo (some ⟨1⟩) =
        .ok { dataDeviceDemo with selection := dataDeviceDemo.offers[0]?,
                                  offers := swap_remove dataDeviceDemo.offers 0 } :=
  ⟨(data_device_foreign_offer_contract.1 dataDeviceDemo ⟨3⟩ (by decide)).1,
    (data_device_foreign_offer_contract.2.2 dataDeviceDemo ⟨1⟩ 0 (by decide)).1⟩

/-! ### Theorems about locale resolution -/

theorem locale_chain_amended_key (env : String → Option OsString) (cat : String) :
    ((((env "LC_ALL").orElse (fun _ => env cat)).orElse (fun _ => env "LANG")).bind
        OsString.into_string).getD "C" = amended_locale env cat := by
  rw [amended_locale, first_set_locale]
  cases env "LC_ALL" with
  | some os =>
      cases os with
      | mk iv => cases iv <;> simp [Option.orElse]
  | none =>
      cases env cat with
      | some os =>
          cases os with
          | mk iv => cases iv <;> simp [Option.orElse]
      | none =>
          cases env "LANG" with
          | some os =>
              cases os with
              | mk iv => cases iv <;> simp [Option.orElse]
          | none => simp [Option.orElse]

/-- C9 counterexample: with `LC_ALL` set but not valid Unicode,
`LC_COLLATE` set to the valid string `"en_US.UTF-8"` and `LANG` unset,
the claim predicts `get_locale_collate` returns `"en_US.UTF-8"`, but the
source's chain selects `LC_ALL` first and its failed conversion falls
straight through to the literal `"C"`. -/
theorem get_locale_collate_invalid_lc_all_counterexample :
    get_locale_collate badLocaleEnv = "C" ∧
      (badLocaleEnv "LC_ALL").isSome = true ∧
      ((badLocaleEnv "LC_ALL").bind OsString.into_string) = none ∧
      badLocaleEnv "LC_COLLATE" = some ⟨some "en_US.UTF-8"⟩ ∧
      badLocaleEnv "LANG" = none ∧
      "C" ≠ "en_US.UTF-8" := by
  refine ⟨by decide, by decide, by decide, by decide, by decide, by decide⟩

/-- C9 (amended): each category resolver takes the first set variable in
the chain `LC_ALL → LC_<CATEGORY> → LANG`; if that value converts to a
valid Unicode string it is returned, otherwise the literal `"C"` is
returned without consulting the later variables, and `"C"` is also
returned when none is set. -/
theorem get_locale_categories_amended (env : String → Option OsString) :
    get_locale_collate env = amended_locale env "LC_COLLATE" ∧
      get_locale_ctype env = amended_locale env "LC_CTYPE" ∧
      get_locale_messages env = amended_locale env "LC_MESSAGES" ∧
      get_locale_monetary env = amended_locale env "LC_MONETARY" ∧
      get_locale_numeric env = amended_locale env "LC_NUMERIC" ∧
      get_locale_time env = amended_locale env "LC_TIME" :=
  ⟨locale_chain_amended_key env "LC_COLLATE", locale_chain_amended_key env "LC_CTYPE",
    locale_chain_amended_key env "LC_MESSAGES", locale_chain_amended_key env "LC_MONETARY",
    locale_chain_amended_key env "LC_NUMERIC", locale_chain_amended_key env "LC_TIME"⟩

end LinuxToolkit
